import Mathlib

/-
Verification development for the libdvb frontend (tuner) subsystem.

Shallow embedding of the Rust sources:
  src/fe/sys.rs    -- wire structures (DtvStat, DtvFrontendStats, DtvPropertyBuffer,
                      DtvProperty, fe_caps / fe_status bitflags, enums)
  src/fe/mod.rs    -- FeDevice (capability data, check_properties, set_properties)
  src/fe/status.rs -- FeStatus (normalize_signal_strength, normalize_snr, read)

Machine-integer conventions: u8/u16/u32/u64 are modelled as Nat, i64 as Int.
Rust `as u8` casts truncate to the low 8 bits (Int.emod 256 / Nat mod 256);
Rust i64 division truncates toward zero (Int.tdiv).  Device I/O is modelled by
an oracle structure recording the result of each kernel call; the poll function
additionally returns the ordered list of device calls it issued.
-/

namespace LibDvb

/-- Rust `as u8` on an i64 value: keep the low 8 bits (two's complement wrap). -/
def i64AsU8 (x : Int) : Nat := (Int.emod x 256).toNat

/- ===== src/fe/sys.rs : enums ===== -/

/-- Enum `fe_delivery_system` from src/fe/sys.rs. -/
inductive fe_delivery_system where
  | SYS_UNDEFINED
  | SYS_DVBC_ANNEX_A
  | SYS_DVBC_ANNEX_B
  | SYS_DVBT
  | SYS_DSS
  | SYS_DVBS
  | SYS_DVBS2
  | SYS_DVBH
  | SYS_ISDBT
  | SYS_ISDBS
  | SYS_ISDBC
  | SYS_ATSC
  | SYS_ATSCMH
  | SYS_DTMB
  | SYS_CMMB
  | SYS_DAB
  | SYS_DVBT2
  | SYS_TURBO
  | SYS_DVBC_ANNEX_C
  | SYS_DVBC2
deriving DecidableEq, Repr

/-- `fe_delivery_system::from_repr` (derived by strum `FromRepr` from the
discriminant values 0..=19 in src/fe/sys.rs). -/
def fe_delivery_system.from_repr (x : Nat) : Option fe_delivery_system :=
  match x with
  | 0 => some .SYS_UNDEFINED
  | 1 => some .SYS_DVBC_ANNEX_A
  | 2 => some .SYS_DVBC_ANNEX_B
  | 3 => some .SYS_DVBT
  | 4 => some .SYS_DSS
  | 5 => some .SYS_DVBS
  | 6 => some .SYS_DVBS2
  | 7 => some .SYS_DVBH
  | 8 => some .SYS_ISDBT
  | 9 => some .SYS_ISDBS
  | 10 => some .SYS_ISDBC
  | 11 => some .SYS_ATSC
  | 12 => some .SYS_ATSCMH
  | 13 => some .SYS_DTMB
  | 14 => some .SYS_CMMB
  | 15 => some .SYS_DAB
  | 16 => some .SYS_DVBT2
  | 17 => some .SYS_TURBO
  | 18 => some .SYS_DVBC_ANNEX_C
  | 19 => some .SYS_DVBC2
  | _ => none

/-- Enum `fe_modulation` from src/fe/sys.rs. -/
inductive fe_modulation where
  | QPSK
  | QAM_16
  | QAM_32
  | QAM_64
  | QAM_128
  | QAM_256
  | QAM_AUTO
  | VSB_8
  | VSB_16
  | PSK_8
  | APSK_16
  | APSK_32
  | DQPSK
  | QAM_4_NR
  | APSK_64
  | APSK_128
  | APSK_256
deriving DecidableEq, Repr

/-- Enum `fe_spectral_inversion` from src/fe/sys.rs. -/
inductive fe_spectral_inversion where
  | INVERSION_OFF
  | INVERSION_ON
  | INVERSION_AUTO
deriving DecidableEq, Repr

/-- Enum `fe_transmit_mode` from src/fe/sys.rs. -/
inductive fe_transmit_mode where
  | TRANSMISSION_MODE_2K
  | TRANSMISSION_MODE_8K
  | TRANSMISSION_MODE_AUTO
  | TRANSMISSION_MODE_4K
  | TRANSMISSION_MODE_1K
  | TRANSMISSION_MODE_16K
  | TRANSMISSION_MODE_32K
  | TRANSMISSION_MODE_C1
  | TRANSMISSION_MODE_C3780
deriving DecidableEq, Repr

/-- Enum `fe_guard_interval` from src/fe/sys.rs. -/
inductive fe_guard_interval where
  | GUARD_INTERVAL_1_32
  | GUARD_INTERVAL_1_16
  | GUARD_INTERVAL_1_8
  | GUARD_INTERVAL_1_4
  | GUARD_INTERVAL_AUTO
  | GUARD_INTERVAL_1_128
  | GUARD_INTERVAL_19_128
  | GUARD_INTERVAL_19_256
  | GUARD_INTERVAL_PN420
  | GUARD_INTERVAL_PN595
  | GUARD_INTERVAL_PN945
deriving DecidableEq, Repr

/-- Enum `fe_hierarchy` from src/fe/sys.rs. -/
inductive fe_hierarchy where
  | HIERARCHY_NONE
  | HIERARCHY_1
  | HIERARCHY_2
  | HIERARCHY_4
  | HIERARCHY_AUTO
deriving DecidableEq, Repr

/-- Enum `fe_sec_voltage` from src/fe/sys.rs. -/
inductive fe_sec_voltage where
  | SEC_VOLTAGE_13
  | SEC_VOLTAGE_18
  | SEC_VOLTAGE_OFF
deriving DecidableEq, Repr

/-- Enum `fe_sec_tone_mode` from src/fe/sys.rs. -/
inductive fe_sec_tone_mode where
  | SEC_TONE_ON
  | SEC_TONE_OFF
deriving DecidableEq, Repr

/- ===== bitflags fe_caps and fe_status (u32 bitmasks) ===== -/

/-- Bitmask type of the `fe_caps` bitflags struct (src/fe/sys.rs). -/
abbrev fe_caps := Nat

/-- Bitflags `contains`: all bits of the flag are set in the mask. -/
def fe_caps.contains (self flag : fe_caps) : Bool := self &&& flag == flag

def FE_CAN_INVERSION_AUTO : fe_caps := 0x1
def FE_CAN_TRANSMISSION_MODE_AUTO : fe_caps := 0x20000
def FE_CAN_GUARD_INTERVAL_AUTO : fe_caps := 0x80000
def FE_CAN_HIERARCHY_AUTO : fe_caps := 0x100000
def FE_CAN_MULTISTREAM : fe_caps := 0x4000000

/-- Bitmask type of the `fe_status` bitflags struct (src/fe/sys.rs). -/
abbrev fe_status := Nat

/-- Bitflags `contains` for `fe_status`. -/
def fe_status.contains (self flag : fe_status) : Bool := self &&& flag == flag

def FE_NONE : fe_status := 0x00
def FE_HAS_SIGNAL : fe_status := 0x01
def FE_HAS_CARRIER : fe_status := 0x02
def FE_HAS_VITERBI : fe_status := 0x04
def FE_HAS_SYNC : fe_status := 0x08
def FE_HAS_LOCK : fe_status := 0x10
def FE_TIMEDOUT : fe_status := 0x20
def FE_REINIT : fe_status := 0x40

/-- Bitflags `from_bits` for `fe_status`: defined only when no unknown bit is
set (used by `FeDevice::read_status`, src/fe/mod.rs). -/
def fe_status.from_bits (bits : Nat) : Option fe_status :=
  if bits &&& 0x7F == bits then some bits else none

/- ===== src/fe/sys.rs : statistics ===== -/

/-- Enum `DtvStat` from src/fe/sys.rs: one tagged raw statistic.  The decibel
scale payload is an i64 (milli-dB), the relative payload a u16, the counter a
u64. -/
inductive DtvStat where
  | FE_SCALE_NOT_AVAILABLE
  | FE_SCALE_DECIBEL (scale : Int)
  | FE_SCALE_RELATIVE (scale : Nat)
  | FE_SCALE_COUNTER (scale : Nat)
deriving DecidableEq, Repr

/-- `DtvStatType::get_decibel` for a single `DtvStat` (src/fe/sys.rs). -/
def DtvStat.get_decibel : DtvStat → Option Int
  | .FE_SCALE_DECIBEL s => some s
  | _ => none

/-- `DtvStatType::get_relative` for a single `DtvStat` (src/fe/sys.rs). -/
def DtvStat.get_relative : DtvStat → Option Nat
  | .FE_SCALE_RELATIVE s => some s
  | _ => none

/-- `DtvStatType::get_counter` for a single `DtvStat` (src/fe/sys.rs). -/
def DtvStat.get_counter : DtvStat → Option Nat
  | .FE_SCALE_COUNTER s => some s
  | _ => none

def MAX_DTV_STATS : Nat := 4

/-- Struct `DtvFrontendStats` from src/fe/sys.rs: a length byte plus a fixed
array `[DtvStat; MAX_DTV_STATS]`, modelled as a list (`stat.length = 4` for
wire-derived values). -/
structure DtvFrontendStats where
  len : Nat
  stat : List DtvStat
deriving DecidableEq, Repr

/-- `WrappedSlice::slice` for `DtvFrontendStats`: the first
`min(len, stat.len())` entries (src/fe/sys.rs lines 587-592). -/
def DtvFrontendStats.slice (self : DtvFrontendStats) : List DtvStat :=
  self.stat.take (min self.len self.stat.length)

/-- `DtvStatType::get_decibel` for `DtvFrontendStats`: first decibel-scale
entry of the slice, scanned in array order (src/fe/sys.rs lines 600-608). -/
def DtvFrontendStats.get_decibel (self : DtvFrontendStats) : Option Int :=
  self.slice.findSome? DtvStat.get_decibel

/-- `DtvStatType::get_relative` for `DtvFrontendStats` (src/fe/sys.rs). -/
def DtvFrontendStats.get_relative (self : DtvFrontendStats) : Option Nat :=
  self.slice.findSome? DtvStat.get_relative

/-- `DtvStatType::get_counter` for `DtvFrontendStats` (src/fe/sys.rs). -/
def DtvFrontendStats.get_counter (self : DtvFrontendStats) : Option Nat :=
  self.slice.findSome? DtvStat.get_counter

/-- `DtvStatType::get_decibel_float`: the decibel value divided by 1000.0
(src/fe/sys.rs lines 505-507).  The f64 quotient is modelled as an exact
rational; every value the claims mention is an exact multiple of 1/1000 and
is represented exactly by both. -/
def DtvFrontendStats.get_decibel_float (self : DtvFrontendStats) : Option ℚ :=
  (self.get_decibel).map (fun d => (d : ℚ) / 1000)

/- ===== src/fe/sys.rs : DtvPropertyBuffer ===== -/

/-- Struct `DtvPropertyBuffer` from src/fe/sys.rs: `data: [u8; 32]` plus a
`len: u32` (modelled as a byte list with `data.length = 32` for wire-derived
values). -/
structure DtvPropertyBuffer where
  data : List Nat
  len : Nat
deriving DecidableEq, Repr

/-- `WrappedSlice::slice` for `DtvPropertyBuffer`: the first
`min(len, data.len())` bytes (src/fe/sys.rs lines 634-639). -/
def DtvPropertyBuffer.slice (self : DtvPropertyBuffer) : List Nat :=
  self.data.take (min self.len self.data.length)

/-- `WrappedResult::get` for `DtvPropertyRequestDeliverySystems`
(src/fe/sys.rs lines 724-733): decode every byte of the slice as an
`fe_delivery_system`, failing on an invalid discriminant. -/
def DtvPropertyRequestDeliverySystems.get (buf : DtvPropertyBuffer) :
    Except String (List fe_delivery_system) :=
  match buf.slice.mapM fe_delivery_system.from_repr with
  | some l => .ok l
  | none => .error "Invalid delivery system"

/- ===== src/fe/status.rs : FeStatus ===== -/

/-- Struct `FeStatus` from src/fe/status.rs: the status snapshot.  The two
f64 decibel fields are modelled as exact rationals (they only ever hold
milli-dB values divided by 1000). -/
structure FeStatus where
  status : fe_status
  delivery_system : Option fe_delivery_system
  modulation : Option fe_modulation
  signal_strength_decibel : Option ℚ
  signal_strength_percentage : Option Nat
  snr_decibel : Option ℚ
  snr_percentage : Option Nat
  ber : Option Nat
  unc : Option Nat
deriving DecidableEq, Repr

/-- `Default for FeStatus` (src/fe/status.rs lines 27-41). -/
def FeStatus.default : FeStatus :=
  { status := FE_NONE
    delivery_system := none
    modulation := none
    signal_strength_decibel := none
    signal_strength_percentage := none
    snr_decibel := none
    snr_percentage := none
    ber := none
    unc := none }

/-- `FeStatus::get_delivery_system` (src/fe/status.rs). -/
def FeStatus.get_delivery_system (self : FeStatus) : Option fe_delivery_system :=
  self.delivery_system

/-- `FeStatus::get_modulation` (src/fe/status.rs). -/
def FeStatus.get_modulation (self : FeStatus) : Option fe_modulation :=
  self.modulation

/-- `FeStatus::get_signal_strength_decibel` (src/fe/status.rs). -/
def FeStatus.get_signal_strength_decibel (self : FeStatus) : Option ℚ :=
  self.signal_strength_decibel

/-- `FeStatus::get_signal_strength` (src/fe/status.rs): the percentage. -/
def FeStatus.get_signal_strength (self : FeStatus) : Option Nat :=
  self.signal_strength_percentage

/-- `FeStatus::get_snr_decibel` (src/fe/status.rs). -/
def FeStatus.get_snr_decibel (self : FeStatus) : Option ℚ :=
  self.snr_decibel

/-- `FeStatus::get_snr` (src/fe/status.rs): the SNR percentage. -/
def FeStatus.get_snr (self : FeStatus) : Option Nat :=
  self.snr_percentage

/-- `FeStatus::get_ber` (src/fe/status.rs). -/
def FeStatus.get_ber (self : FeStatus) : Option Nat := self.ber

/-- `FeStatus::get_unc` (src/fe/status.rs). -/
def FeStatus.get_unc (self : FeStatus) : Option Nat := self.unc

/-- `FeStatus::normalize_signal_strength` (src/fe/status.rs lines 176-197).
Sets `signal_strength_decibel` from the stats decibel entry, then computes
`signal_strength_percentage`: a relative entry gives `v * 100 / 65535` (u32
arithmetic, cast to u8); otherwise a decibel entry with `FE_HAS_SIGNAL` set
interpolates between the hard-coded floor -85000 and ceiling -6000 milli-dB
(i64 arithmetic, truncating division, cast to u8); otherwise `None`. -/
def FeStatus.normalize_signal_strength (self : FeStatus)
    (stats : DtvFrontendStats) : FeStatus :=
  let self := { self with signal_strength_decibel := stats.get_decibel_float }
  { self with signal_strength_percentage :=
      match stats.get_relative, stats.get_decibel with
      | some v, _ => some (v * 100 / 65535 % 256)
      | none, some decibel =>
        if fe_status.contains self.status FE_HAS_SIGNAL then
          let lo : Int := -85000
          let hi : Int := -6000
          some (if decibel > hi then 100
                else if decibel < lo then 0
                else i64AsU8 (Int.tdiv ((lo - decibel) * 100) (lo - hi)))
        else none
      | none, none => none }

/-- `FeStatus::normalize_snr` (src/fe/status.rs lines 199-228).  NOTE: the
source assigns `self.signal_strength_decibel` and
`self.signal_strength_percentage` here (not the snr fields); this embedding
reproduces that faithfully.  The inner lookup maps the delivery system (and,
for ATSC, the modulation) to a reference ceiling `vhi` in milli-dB, then
`decibel <= 0` gives 0, `decibel >= vhi` gives 100, else
`decibel * 100 / vhi` (i64 arithmetic, cast to u8). -/
def FeStatus.normalize_snr (self : FeStatus) (stats : DtvFrontendStats) :
    FeStatus :=
  let self := { self with signal_strength_decibel := stats.get_decibel_float }
  { self with signal_strength_percentage :=
      match stats.get_relative, stats.get_decibel with
      | some v, _ => some (v * 100 / 65535 % 256)
      | none, some decibel =>
        if fe_status.contains self.status FE_HAS_CARRIER then
          match (match self.delivery_system with
                 | some .SYS_DVBS | some .SYS_DVBS2 => some 15000
                 | some .SYS_DVBC_ANNEX_A | some .SYS_DVBC_ANNEX_B
                 | some .SYS_DVBC_ANNEX_C | some .SYS_DVBC2 => some 28000
                 | some .SYS_DVBT | some .SYS_DVBT2 => some 19000
                 | some .SYS_ATSC =>
                   some (match self.modulation with
                         | some .VSB_8 | some .VSB_16 => (19000 : Int)
                         | _ => 28000)
                 | _ => none) with
          | some vhi =>
            if decibel ≤ 0 then some 0
            else if decibel ≥ vhi then some 100
            else some (i64AsU8 (Int.tdiv (decibel * 100) vhi))
          | none => none
        else none
      | none, none => none }

/- ===== device-I/O oracle model for FeStatus::read ===== -/

/-- One device call that `FeStatus::read` may issue.  The two legacy scalar
reads `FE_READ_SIGNAL_STRENGTH` and `FE_READ_SNR` (`FeDevice::
read_signal_strength` / `read_snr`, src/fe/mod.rs lines 377-409) are included
so that the model can express whether a poll ever issues them. -/
inductive DevOp where
  | readStatus
  | getProperties
  | readBer
  | readUnc
  | readSignalStrength
  | readSnr
deriving DecidableEq, Repr

/-- Typed error surfaced by a poll (anyhow contexts in the source). -/
inductive FeError where
  | device (code : Nat)
  | invalidStatus
deriving DecidableEq, Repr

/-- Result of the batched `FE_GET_PROPERTY` issued by `FeStatus::read`
(`get_dtv_properties!` with the six kinds listed at src/fe/status.rs lines
238-246): delivery system, modulation, and four statistics. -/
structure DtvProps where
  delivery_system : fe_delivery_system
  modulation : fe_modulation
  signal_strength : DtvFrontendStats
  snr : DtvFrontendStats
  ber : DtvFrontendStats
  unc : DtvFrontendStats
deriving DecidableEq, Repr

/-- Oracle for the device calls a poll can issue: the raw u32 the
`FE_READ_STATUS` ioctl writes, the decoded batched-get reply, and the two
legacy counters.  `Except Nat` models ioctl failure with an OS error code. -/
structure FeDeviceIo where
  read_status_raw : Except Nat Nat
  get_properties : Except Nat DtvProps
  read_ber : Except Nat Nat
  read_unc : Except Nat Nat
deriving Repr

/-- `FeDevice::read_status` (src/fe/mod.rs lines 359-374): issue the ioctl,
then validate the raw bits with `fe_status::from_bits`. -/
def FeDeviceIo.read_status (fe : FeDeviceIo) : Except FeError fe_status :=
  match fe.read_status_raw with
  | .error code => .error (.device code)
  | .ok raw =>
    match fe_status.from_bits raw with
    | some st => .ok st
    | none => .error .invalidStatus

/-- Outcome of one poll: the (possibly partially updated) snapshot, the
ordered list of device calls issued, and the error, if any. -/
structure ReadOutcome where
  state : FeStatus
  ops : List DevOp
  error : Option FeError
deriving DecidableEq, Repr

/-- The final `self.unc = match unc.get_counter() ...` statement of
`FeStatus::read` (src/fe/status.rs lines 256-260), factored out because it
runs after every non-failing branch of the `ber` assignment; `props` is the
reply of the single batched get already issued. -/
def FeStatus.readUncStep (self : FeStatus) (fe : FeDeviceIo) (props : DtvProps)
    (ops : List DevOp) : ReadOutcome :=
  match props.unc.get_counter with
  | some v => ⟨{ self with unc := some v }, ops, none⟩
  | none =>
    if fe_status.contains self.status FE_HAS_LOCK then
      match fe.read_unc with
      | .error code => ⟨self, ops ++ [.readUnc], some (.device code)⟩
      | .ok v => ⟨{ self with unc := some v }, ops ++ [.readUnc], none⟩
    else ⟨{ self with unc := none }, ops, none⟩

/-- `FeStatus::read` (src/fe/status.rs lines 231-263), with the device
modelled by the `FeDeviceIo` oracle.  Mirrors the source statement by
statement: assign `status` from `read_status` (propagating its error), return
early when the status equals `FE_NONE`, issue the batched get for the six
kinds, assign `delivery_system` and `modulation`, run the two normalizers,
then fill `ber`/`unc` from the counter entries with a legacy
`read_ber`/`read_unc` fallback gated on `FE_HAS_LOCK`.  A `?`-propagated
error leaves the fields not yet assigned at their previous values. -/
def FeStatus.read (self : FeStatus) (fe : FeDeviceIo) : ReadOutcome :=
  match fe.read_status with
  | .error e => ⟨self, [.readStatus], some e⟩
  | .ok st =>
    let self := { self with status := st }
    if st == FE_NONE then ⟨self, [.readStatus], none⟩
    else
      match fe.get_properties with
      | .error code => ⟨self, [.readStatus, .getProperties], some (.device code)⟩
      | .ok props =>
        let self := { self with
          delivery_system := some props.delivery_system
          modulation := some props.modulation }
        let self := self.normalize_signal_strength props.signal_strength
        let self := self.normalize_snr props.snr
        match props.ber.get_counter with
        | some v =>
          let self := { self with ber := some v }
          FeStatus.readUncStep self fe props [.readStatus, .getProperties]
        | none =>
          if fe_status.contains self.status FE_HAS_LOCK then
            match fe.read_ber with
            | .error code =>
              ⟨self, [.readStatus, .getProperties, .readBer], some (.device code)⟩
            | .ok v =>
              let self := { self with ber := some v }
              FeStatus.readUncStep self fe props [.readStatus, .getProperties, .readBer]
          else
            let self := { self with ber := none }
            FeStatus.readUncStep self fe props [.readStatus, .getProperties]

/- ===== src/fe/sys.rs : DtvProperty, src/fe/mod.rs : FeDevice ===== -/

/-- Enum `DtvProperty` from src/fe/sys.rs (representative subset of the ~60
constructors): all seven kinds that `FeDevice::check_properties` inspects,
plus several kinds its catch-all arm passes through unchecked.  Payloads
follow the source types (`DtvPropertyRequestInt<T>` carries the value, the
void requests carry nothing). -/
inductive DtvProperty where
  | DTV_TUNE
  | DTV_CLEAR
  | DTV_FREQUENCY (v : Nat)
  | DTV_MODULATION (v : fe_modulation)
  | DTV_BANDWIDTH_HZ (v : Nat)
  | DTV_INVERSION (v : fe_spectral_inversion)
  | DTV_SYMBOL_RATE (v : Nat)
  | DTV_VOLTAGE (v : fe_sec_voltage)
  | DTV_TONE (v : fe_sec_tone_mode)
  | DTV_DELIVERY_SYSTEM (v : fe_delivery_system)
  | DTV_GUARD_INTERVAL (v : fe_guard_interval)
  | DTV_TRANSMISSION_MODE (v : fe_transmit_mode)
  | DTV_HIERARCHY (v : fe_hierarchy)
  | DTV_STREAM_ID (v : Nat)
deriving DecidableEq, Repr

/-- Constant `DTV_IOCTL_MAX_MSGS` (src/fe/sys.rs line 951): the kernel's
per-ioctl ceiling on the number of property records.  Declared in the source
but never consulted by it. -/
def DTV_IOCTL_MAX_MSGS : Nat := 64

/-- Validation failure raised by `FeDevice::check_properties` (the anyhow
`ensure!` messages in src/fe/mod.rs lines 220-278), or a device failure from
the ioctl itself. -/
inductive SetError where
  | frequencyOutOfRange
  | symbolrateOutOfRange
  | noAutoInversion
  | noAutoTransmitMode
  | noAutoGuardInterval
  | noAutoHierarchy
  | noMultistream
  | device (code : Nat)
deriving DecidableEq, Repr

/-- Capability data of `FeDevice` (src/fe/mod.rs lines 25-38): the
`Range<u32>` frequency and symbol-rate ranges (half-open, `start <= v < end`
per `Range::contains`) and the `fe_caps` bitset, captured at open time. -/
structure FeDevice where
  frequency_range_start : Nat
  frequency_range_end : Nat
  symbolrate_range_start : Nat
  symbolrate_range_end : Nat
  caps : fe_caps
deriving DecidableEq, Repr

/-- The validation a single batch entry gets in `FeDevice::check_properties`
(src/fe/mod.rs lines 220-278): the error its arm would raise, or `none` if
the entry passes (kinds outside the validated subset always pass, via the
catch-all `_ => {}` arm). -/
def FeDevice.entry_err (fe : FeDevice) : DtvProperty → Option SetError
  | .DTV_FREQUENCY v =>
    if fe.frequency_range_start ≤ v ∧ v < fe.frequency_range_end then none
    else some .frequencyOutOfRange
  | .DTV_SYMBOL_RATE v =>
    if fe.symbolrate_range_start ≤ v ∧ v < fe.symbolrate_range_end then none
    else some .symbolrateOutOfRange
  | .DTV_INVERSION v =>
    if v = .INVERSION_AUTO ∧ ¬ fe_caps.contains fe.caps FE_CAN_INVERSION_AUTO
    then some .noAutoInversion else none
  | .DTV_TRANSMISSION_MODE v =>
    if v = .TRANSMISSION_MODE_AUTO ∧
        ¬ fe_caps.contains fe.caps FE_CAN_TRANSMISSION_MODE_AUTO
    then some .noAutoTransmitMode else none
  | .DTV_GUARD_INTERVAL v =>
    if v = .GUARD_INTERVAL_AUTO ∧
        ¬ fe_caps.contains fe.caps FE_CAN_GUARD_INTERVAL_AUTO
    then some .noAutoGuardInterval else none
  | .DTV_HIERARCHY v =>
    if v = .HIERARCHY_AUTO ∧ ¬ fe_caps.contains fe.caps FE_CAN_HIERARCHY_AUTO
    then some .noAutoHierarchy else none
  | .DTV_STREAM_ID _ =>
    if ¬ fe_caps.contains fe.caps FE_CAN_MULTISTREAM
    then some .noMultistream else none
  | _ => none

/-- `FeDevice::check_properties` (src/fe/mod.rs lines 220-278): walk the
batch in order and fail with the first entry's validation error, if any. -/
def FeDevice.check_properties (fe : FeDevice) :
    List DtvProperty → Except SetError Unit
  | [] => .ok ()
  | p :: rest =>
    match fe.entry_err p with
    | some e => .error e
    | none => fe.check_properties rest

/-- `FeDevice::set_properties` (src/fe/mod.rs lines 281-306): validate the
whole batch first; only if validation passes is the `FE_SET_PROPERTY` ioctl
issued (its result supplied by the oracle `io`).  The returned Bool records
whether the ioctl was invoked.  The source builds the ioctl argument from
`cmdseq.len()` and the record array without any further check — in
particular no batch-size check against `DTV_IOCTL_MAX_MSGS`. -/
def FeDevice.set_properties (fe : FeDevice) (io : Except Nat Unit)
    (cmdseq : List DtvProperty) : Except SetError Unit × Bool :=
  match fe.check_properties cmdseq with
  | .error e => (.error e, false)
  | .ok _ =>
    match io with
    | .error code => (.error (.device code), true)
    | .ok _ => (.ok (), true)

/- ===== spec-side definition for the refinement claim about the
statistics reader ===== -/

/-- Whether a raw statistic entry is available (its tag is not
`FE_SCALE_NOT_AVAILABLE`). -/
def DtvStat.is_available : DtvStat → Bool
  | .FE_SCALE_NOT_AVAILABLE => false
  | _ => true

/-- Modelled from the spec (section 4.3, StatisticsReader policy step 1):
"Scan in array order; return the first entry whose tag is not Unavailable."
Stated for comparison with the per-scale getters the source actually
implements. -/
def specFirstAvailable (s : DtvFrontendStats) : Option DtvStat :=
  s.slice.find? DtvStat.is_available

/- ===== predicates used by the invariant claims ===== -/

/-- A stored percentage field is in range: every value it holds is at most
100. -/
def percent_in_range (o : Option Nat) : Prop := ∀ v ∈ o, v ≤ 100

/-- Snapshot invariant: both percentages observable through
`get_signal_strength` and `get_snr` are in 0..=100. -/
def FeStatus.percentages_in_range (s : FeStatus) : Prop :=
  percent_in_range s.get_signal_strength ∧
  percent_in_range s.get_snr

/-- Wire wellformedness of a statistics array: every relative-scale entry
carries a u16 (the Rust field is `u16`, so any value read from the device
satisfies this). -/
def DtvFrontendStats.relative_wf (s : DtvFrontendStats) : Prop :=
  ∀ st ∈ s.stat, ∀ v, st.get_relative = some v → v < 65536

/- ===================================================================== -/
/- Theorems.  Shared helper lemmas first, then one theorem per claim.     -/
/- ===================================================================== -/

/-- A truncated-to-u8 value that was already in 0..=100 is unchanged and in
range. -/
theorem i64AsU8_le_of_bounds {x : Int} (h0 : 0 ≤ x) (h1 : x ≤ 100) :
    i64AsU8 x ≤ 100 := by
  unfold i64AsU8
  show (x % 256).toNat ≤ 100
  rw [Int.emod_eq_of_lt h0 (by omega)]
  exact Int.toNat_le.mpr h1

/-- Bound for the relative-scale percentage computation: a u16 input keeps
`v * 100 / 65535` (and its u8 truncation) within 0..=100. -/
theorem rel_pct_le {v : Nat} (h : v < 65536) : v * 100 / 65535 % 256 ≤ 100 := by
  have hdiv : v * 100 / 65535 ≤ 100 := by
    calc v * 100 / 65535 ≤ 65535 * 100 / 65535 :=
          Nat.div_le_div_right (by omega)
    _ = 100 := by norm_num
  calc v * 100 / 65535 % 256 ≤ v * 100 / 65535 := Nat.mod_le _ _
  _ ≤ 100 := hdiv

/-- Bound for the signal-strength decibel interpolation: between the
hard-coded floor and ceiling the truncating division lands in 0..=100. -/
theorem sig_tdiv_bounds {d : Int} (hlo : ¬ d < -85000) (hhi : ¬ d > -6000) :
    0 ≤ Int.tdiv ((-85000 - d) * 100) (-85000 - -6000) ∧
    Int.tdiv ((-85000 - d) * 100) (-85000 - -6000) ≤ 100 := by
  push_neg at hlo hhi
  have hrw : ((-85000 : Int) - d) * 100 = -((d + 85000) * 100) := by ring
  have hden : ((-85000 : Int) - -6000) = -(79000 : Int) := by norm_num
  rw [hrw, hden, Int.tdiv_neg, Int.neg_tdiv, neg_neg]
  have hnum0 : (0 : Int) ≤ (d + 85000) * 100 := by nlinarith
  have heq : Int.tdiv ((d + 85000) * 100) 79000 = (d + 85000) * 100 / 79000 :=
    Int.tdiv_eq_ediv hnum0 (by norm_num)
  rw [heq]
  constructor
  · exact Int.ediv_nonneg hnum0 (by norm_num)
  · calc (d + 85000) * 100 / 79000 ≤ 7900000 / 79000 :=
          Int.ediv_le_ediv (by norm_num) (by nlinarith)
    _ = 100 := by norm_num

/-- Bound for the SNR ratio computation: for `0 < d < vhi` the truncated
quotient `d * 100 / vhi` lands in 0..=100. -/
theorem snr_tdiv_bounds {d vhi : Int} (h0 : ¬ d ≤ 0) (h1 : ¬ d ≥ vhi) :
    0 ≤ Int.tdiv (d * 100) vhi ∧ Int.tdiv (d * 100) vhi ≤ 100 := by
  push_neg at h0 h1
  have hv : (0 : Int) < vhi := lt_trans h0 h1
  have hnum0 : (0 : Int) ≤ d * 100 := by nlinarith
  have heq : Int.tdiv (d * 100) vhi = d * 100 / vhi :=
    Int.tdiv_eq_ediv hnum0 (by omega)
  rw [heq]
  constructor
  · exact Int.ediv_nonneg hnum0 (by omega)
  · calc d * 100 / vhi ≤ vhi * 100 / vhi :=
          Int.ediv_le_ediv hv (by nlinarith)
    _ = 100 := Int.mul_ediv_cancel_left 100 (by omega)

/-- A relative value extracted from a wellformed statistics array is a
u16. -/
theorem get_relative_lt_of_wf {s : DtvFrontendStats} (hwf : s.relative_wf)
    {v : Nat} (h : s.get_relative = some v) : v < 65536 := by
  obtain ⟨st, hmem, hst⟩ := List.exists_of_findSome?_eq_some h
  exact hwf st (List.take_subset _ _ hmem) v hst

/-- The percentage `normalize_signal_strength` stores is in 0..=100 for any
wellformed statistics input. -/
theorem normalize_signal_strength_pct_le (self : FeStatus)
    (stats : DtvFrontendStats) (hwf : stats.relative_wf) :
    percent_in_range
      (self.normalize_signal_strength stats).signal_strength_percentage := by
  intro v hv
  simp only [FeStatus.normalize_signal_strength] at hv
  rcases hrel : stats.get_relative with _ | r <;>
    rcases hdec : stats.get_decibel with _ | d <;>
    simp only [hrel, hdec] at hv
  · exact absurd hv (by simp)
  · split at hv
    · simp only [Option.mem_def, Option.some.injEq] at hv
      subst hv
      split
      · omega
      · split
        · omega
        · rename_i hhi hlo
          exact i64AsU8_le_of_bounds (sig_tdiv_bounds hlo hhi).1
            (sig_tdiv_bounds hlo hhi).2
    · exact absurd hv (by simp)
  · simp only [Option.mem_def, Option.some.injEq] at hv
    subst hv
    exact rel_pct_le (get_relative_lt_of_wf hwf hrel)
  · simp only [Option.mem_def, Option.some.injEq] at hv
    subst hv
    exact rel_pct_le (get_relative_lt_of_wf hwf hrel)

/-- The percentage `normalize_snr` stores (into the signal-strength field)
is in 0..=100 for any wellformed statistics input. -/
theorem normalize_snr_pct_le (self : FeStatus) (stats : DtvFrontendStats)
    (hwf : stats.relative_wf) :
    percent_in_range (self.normalize_snr stats).signal_strength_percentage := by
  intro v hv
  simp only [FeStatus.normalize_snr] at hv
  rcases hrel : stats.get_relative with _ | r <;>
    rcases hdec : stats.get_decibel with _ | d <;>
    simp only [hrel, hdec] at hv
  · exact absurd hv (by simp)
  · split at hv
    · split at hv
      · rename_i vhi heq
        have hpos : (0 : Int) < vhi := by
          rcases h2 : self.delivery_system with _ | ds
          · rw [h2] at heq; simp at heq
          · rw [h2] at heq
            cases ds
            all_goals first
              | (simp only [Option.some.injEq] at heq; omega)
              | (simp at heq; done)
              | (simp only [Option.some.injEq] at heq
                 rcases h3 : self.modulation with _ | m <;> rw [h3] at heq <;>
                   first
                     | (simp at heq; omega)
                     | (cases m <;> simp at heq <;> omega))
        split at hv
        · simp only [Option.mem_def, Option.some.injEq] at hv; omega
        · split at hv
          · simp only [Option.mem_def, Option.some.injEq] at hv; omega
          · simp only [Option.mem_def, Option.some.injEq] at hv
            subst hv
            rename_i h0 h1
            exact i64AsU8_le_of_bounds (snr_tdiv_bounds h0 h1).1
              (snr_tdiv_bounds h0 h1).2
      · exact absurd hv (by simp)
    · exact absurd hv (by simp)
  · simp only [Option.mem_def, Option.some.injEq] at hv
    subst hv
    exact rel_pct_le (get_relative_lt_of_wf hwf hrel)
  · simp only [Option.mem_def, Option.some.injEq] at hv
    subst hv
    exact rel_pct_le (get_relative_lt_of_wf hwf hrel)

/-- The unc-assignment step touches only the `unc` field (and the op trace):
both percentage fields pass through unchanged. -/
theorem readUncStep_pct (self : FeStatus) (fe : FeDeviceIo) (props : DtvProps)
    (ops : List DevOp) :
    (FeStatus.readUncStep self fe props ops).state.signal_strength_percentage
        = self.signal_strength_percentage ∧
    (FeStatus.readUncStep self fe props ops).state.snr_percentage
        = self.snr_percentage := by
  unfold FeStatus.readUncStep
  split
  · exact ⟨rfl, rfl⟩
  · split
    · split <;> exact ⟨rfl, rfl⟩
    · exact ⟨rfl, rfl⟩

/-- One poll step preserves the percentage invariant: whatever branch
`FeStatus::read` takes, the stored percentages stay in 0..=100. -/
theorem read_state_pct (self : FeStatus) (fe : FeDeviceIo)
    (hinv : self.percentages_in_range)
    (hwf : ∀ props, fe.get_properties = .ok props → props.snr.relative_wf) :
    (self.read fe).state.percentages_in_range := by
  have hsig : ∀ (s0 : FeStatus) (snrStats : DtvFrontendStats),
      snrStats.relative_wf →
      percent_in_range (s0.normalize_snr snrStats).signal_strength_percentage :=
    fun s0 snrStats hw => normalize_snr_pct_le s0 snrStats hw
  unfold FeStatus.read
  dsimp only
  simp only [FeStatus.percentages_in_range, FeStatus.get_signal_strength,
    FeStatus.get_snr]
  split
  · exact hinv
  · split
    · exact hinv
    · split
      · exact hinv
      · rename_i props hgp
        have hw := hwf props hgp
        split
        · rcases readUncStep_pct _ fe props _ with ⟨h1, h2⟩
          refine ⟨?_, ?_⟩
          · rw [h1]; exact hsig _ _ hw
          · rw [h2]; exact hinv.2
        · split
          · split
            · exact ⟨hsig _ _ hw, hinv.2⟩
            · rcases readUncStep_pct _ fe props _ with ⟨h1, h2⟩
              refine ⟨?_, ?_⟩
              · rw [h1]; exact hsig _ _ hw
              · rw [h2]; exact hinv.2
          · rcases readUncStep_pct _ fe props _ with ⟨h1, h2⟩
            refine ⟨?_, ?_⟩
            · rw [h1]; exact hsig _ _ hw
            · rw [h2]; exact hinv.2

/-- Claim C10: every percentage stored in a status snapshot
(signal-strength percent and SNR percent) is an integer in 0..=100: the
relative transform `v * 100 / 65535` with v a u16, the decibel
interpolation with the value clamped between floor and ceiling, and the SNR
ratio `d * 100 / vhi` with `0 < d < vhi` all fit in 0..=100 before the cast
to u8, so starting from the default snapshot and under any sequence of
polls, no out-of-range percentage is observable through
`get_signal_strength` or `get_snr`. -/
theorem c10_percentages_in_range (self : FeStatus) (fe : FeDeviceIo)
    (stats : DtvFrontendStats) (hst : stats.relative_wf)
    (hinv : self.percentages_in_range)
    (hwf : ∀ props, fe.get_properties = .ok props → props.snr.relative_wf) :
    FeStatus.default.percentages_in_range ∧
    percent_in_range
      (self.normalize_signal_strength stats).signal_strength_percentage ∧
    percent_in_range (self.normalize_snr stats).signal_strength_percentage ∧
    (self.read fe).state.percentages_in_range :=
  ⟨⟨fun _ hv => by simp [FeStatus.default, FeStatus.get_signal_strength] at hv,
    fun _ hv => by simp [FeStatus.default, FeStatus.get_snr] at hv⟩,
   normalize_signal_strength_pct_le self stats hst,
   normalize_snr_pct_le self stats hst,
   read_state_pct self fe hinv hwf⟩

/-- Witness for C10: the invariant theorem applied to a concrete locked poll
(status 0x1F, a relative signal-strength entry, a decibel CNR entry). -/
theorem c10_witness :
    (FeStatus.default.read
      ⟨.ok 0x1F,
       .ok ⟨.SYS_DVBS, .QPSK,
            ⟨1, [.FE_SCALE_RELATIVE 30000, .FE_SCALE_NOT_AVAILABLE,
                 .FE_SCALE_NOT_AVAILABLE, .FE_SCALE_NOT_AVAILABLE]⟩,
            ⟨1, [.FE_SCALE_DECIBEL 9000, .FE_SCALE_NOT_AVAILABLE,
                 .FE_SCALE_NOT_AVAILABLE, .FE_SCALE_NOT_AVAILABLE]⟩,
            ⟨1, [.FE_SCALE_COUNTER 3, .FE_SCALE_NOT_AVAILABLE,
                 .FE_SCALE_NOT_AVAILABLE, .FE_SCALE_NOT_AVAILABLE]⟩,
            ⟨1, [.FE_SCALE_COUNTER 4, .FE_SCALE_NOT_AVAILABLE,
                 .FE_SCALE_NOT_AVAILABLE, .FE_SCALE_NOT_AVAILABLE]⟩⟩,
       .ok 7, .ok 8⟩).state.percentages_in_range := by
  refine (c10_percentages_in_range FeStatus.default _
    ⟨1, [.FE_SCALE_RELATIVE 30000, .FE_SCALE_NOT_AVAILABLE,
         .FE_SCALE_NOT_AVAILABLE, .FE_SCALE_NOT_AVAILABLE]⟩
    ?_ ?_ ?_).2.2.2
  · intro st hmem v hv
    fin_cases hmem <;> simp [DtvStat.get_relative] at hv
    omega
  · exact ⟨fun _ hv => by simp [FeStatus.default, FeStatus.get_signal_strength] at hv,
      fun _ hv => by simp [FeStatus.default, FeStatus.get_snr] at hv⟩
  · intro props h
    injection h with h
    subst h
    intro st hmem v hv
    fin_cases hmem <;> simp [DtvStat.get_relative] at hv

/-- Claim C1 (the code evaluated at the failing input): with the
has-carrier bit set, delivery system DVB-S, and CNR statistic
Decibel(15000), `normalize_snr` leaves both SNR fields of the snapshot
`None`; the normalized values 15.0 dB and 100% are stored into the
signal-strength fields instead, so they never reach
`snr_decibel`/`snr_percentage`. -/
theorem c1_normalize_snr_misassigns_fields :
    (({ FeStatus.default with
          status := FE_HAS_CARRIER
          delivery_system := some .SYS_DVBS }).normalize_snr
        ⟨1, [.FE_SCALE_DECIBEL 15000, .FE_SCALE_NOT_AVAILABLE,
             .FE_SCALE_NOT_AVAILABLE, .FE_SCALE_NOT_AVAILABLE]⟩).snr_decibel
        = none ∧
    (({ FeStatus.default with
          status := FE_HAS_CARRIER
          delivery_system := some .SYS_DVBS }).normalize_snr
        ⟨1, [.FE_SCALE_DECIBEL 15000, .FE_SCALE_NOT_AVAILABLE,
             .FE_SCALE_NOT_AVAILABLE, .FE_SCALE_NOT_AVAILABLE]⟩).snr_percentage
        = none ∧
    (({ FeStatus.default with
          status := FE_HAS_CARRIER
          delivery_system := some .SYS_DVBS }).normalize_snr
        ⟨1, [.FE_SCALE_DECIBEL 15000, .FE_SCALE_NOT_AVAILABLE,
             .FE_SCALE_NOT_AVAILABLE, .FE_SCALE_NOT_AVAILABLE]⟩).signal_strength_decibel
        = some 15 ∧
    (({ FeStatus.default with
          status := FE_HAS_CARRIER
          delivery_system := some .SYS_DVBS }).normalize_snr
        ⟨1, [.FE_SCALE_DECIBEL 15000, .FE_SCALE_NOT_AVAILABLE,
             .FE_SCALE_NOT_AVAILABLE, .FE_SCALE_NOT_AVAILABLE]⟩).signal_strength_percentage
        = some 100 := by
  refine ⟨rfl, rfl, ?_, by decide⟩
  norm_num [FeStatus.normalize_snr, DtvFrontendStats.get_decibel_float,
    DtvFrontendStats.get_decibel, DtvFrontendStats.get_relative,
    DtvFrontendStats.slice, DtvStat.get_decibel, DtvStat.get_relative,
    List.findSome?]

/-- Claim C3 counterexample: a poll that reads lock status `none` does not
reset the optional fields — a delivery system left over from an earlier
poll survives in the snapshot even though the poll succeeds. -/
theorem c3_stale_fields_survive :
    (({ FeStatus.default with delivery_system := some .SYS_DVBS }).read
        ⟨.ok 0, .error 1, .error 1, .error 1⟩).error = none ∧
    (({ FeStatus.default with delivery_system := some .SYS_DVBS }).read
        ⟨.ok 0, .error 1, .error 1, .error 1⟩).state.delivery_system
        = some .SYS_DVBS := by
  exact ⟨rfl, rfl⟩

/-- Claim C3 (amended): when lock status reads back `none`, the poll stops
after that single device call, sets the status field to `FE_NONE`, and
leaves every other snapshot field exactly as it was (so the optional fields
are `None` only if they were already `None`, e.g. on a fresh snapshot). -/
theorem c3_amended_none_early_return (self : FeStatus) (fe : FeDeviceIo)
    (h : fe.read_status = .ok FE_NONE) :
    self.read fe
      = ⟨{ self with status := FE_NONE }, [.readStatus], none⟩ := by
  unfold FeStatus.read
  rw [h]
  rfl

/-- Witness for the amended C3 at a concrete state and device. -/
theorem c3_amended_witness :
    ({ FeStatus.default with delivery_system := some .SYS_DVBS }).read
        ⟨.ok 0, .error 1, .error 1, .error 1⟩
      = ⟨{ FeStatus.default with
             delivery_system := some .SYS_DVBS
             status := FE_NONE }, [.readStatus], none⟩ :=
  c3_amended_none_early_return _ _ rfl

/-- Claim C5 counterexample: for the statistic Decibel(-9000) with the
has-signal bit clear (the claim's "otherwise" case, which it says yields
both dBm and percent `None`), `normalize_signal_strength` still stores the
dBm value -9.0; only the percentage is `None`. -/
theorem c5_dbm_set_without_signal_bit :
    (FeStatus.default.normalize_signal_strength
        ⟨2, [.FE_SCALE_NOT_AVAILABLE, .FE_SCALE_DECIBEL (-9000),
             .FE_SCALE_NOT_AVAILABLE, .FE_SCALE_NOT_AVAILABLE]⟩).signal_strength_decibel
        = some (-9) ∧
    (FeStatus.default.normalize_signal_strength
        ⟨2, [.FE_SCALE_NOT_AVAILABLE, .FE_SCALE_DECIBEL (-9000),
             .FE_SCALE_NOT_AVAILABLE, .FE_SCALE_NOT_AVAILABLE]⟩).signal_strength_percentage
        = none := by
  constructor
  · norm_num [FeStatus.normalize_signal_strength,
      DtvFrontendStats.get_decibel_float, DtvFrontendStats.get_decibel,
      DtvFrontendStats.slice, DtvStat.get_decibel, List.findSome?]
  · decide

/-- Claim C5 (amended): `normalize_signal_strength` maps a relative entry v
(a u16) to percent `v * 100 / 65535`; with no relative entry, a decibel
entry d and the has-signal bit set it stores the clamped interpolation
between floor -85000 and ceiling -6000 milli-dB; the percentage is `None`
otherwise.  The dBm field, however, is set to d / 1000 whenever the
statistics contain a decibel entry, regardless of the lock bits (it is
`None` only when no decibel entry is present). -/
theorem c5_amended_normalize_signal (self : FeStatus)
    (stats : DtvFrontendStats) :
    (self.normalize_signal_strength stats).signal_strength_decibel
        = stats.get_decibel.map (fun d => (d : ℚ) / 1000) ∧
    (∀ v, stats.get_relative = some v → v < 65536 →
      (self.normalize_signal_strength stats).signal_strength_percentage
          = some (v * 100 / 65535)) ∧
    (∀ d, stats.get_relative = none → stats.get_decibel = some d →
      fe_status.contains self.status FE_HAS_SIGNAL = true →
      (self.normalize_signal_strength stats).signal_strength_percentage
          = some (if d > -6000 then 100
                  else if d < -85000 then 0
                  else i64AsU8 (Int.tdiv ((-85000 - d) * 100) (-85000 - -6000)))) ∧
    (stats.get_relative = none →
      (stats.get_decibel = none ∨
        fe_status.contains self.status FE_HAS_SIGNAL = false) →
      (self.normalize_signal_strength stats).signal_strength_percentage
          = none) := by
  refine ⟨rfl, ?_, ?_, ?_⟩
  · intro v hrel hlt
    simp only [FeStatus.normalize_signal_strength, hrel]
    have : v * 100 / 65535 % 256 = v * 100 / 65535 := by
      apply Nat.mod_eq_of_lt
      have : v * 100 / 65535 ≤ 100 := by
        calc v * 100 / 65535 ≤ 65535 * 100 / 65535 :=
              Nat.div_le_div_right (by omega)
        _ = 100 := by norm_num
      omega
    rw [this]
  · intro d hrel hdec hsig
    simp only [FeStatus.normalize_signal_strength, hrel, hdec, hsig, if_true]
  · intro hrel hcase
    rcases hcase with hdec | hsig
    · simp only [FeStatus.normalize_signal_strength, hrel, hdec]
    · rcases hdec : stats.get_decibel with _ | d
      · simp only [FeStatus.normalize_signal_strength, hrel, hdec]
      · simp only [FeStatus.normalize_signal_strength, hrel, hdec, hsig,
          Bool.false_eq_true, if_false]

/-- Witness for the amended C5: the end-to-end scenario from the spec —
MultiStat [Unavailable, Decibel(-9000)] with has-signal set yields
dBm -9.0 and percent 96. -/
theorem c5_amended_witness :
    (({ FeStatus.default with status := FE_HAS_SIGNAL }).normalize_signal_strength
        ⟨2, [.FE_SCALE_NOT_AVAILABLE, .FE_SCALE_DECIBEL (-9000),
             .FE_SCALE_NOT_AVAILABLE, .FE_SCALE_NOT_AVAILABLE]⟩).signal_strength_decibel
        = some (-9) ∧
    (({ FeStatus.default with status := FE_HAS_SIGNAL }).normalize_signal_strength
        ⟨2, [.FE_SCALE_NOT_AVAILABLE, .FE_SCALE_DECIBEL (-9000),
             .FE_SCALE_NOT_AVAILABLE, .FE_SCALE_NOT_AVAILABLE]⟩).signal_strength_percentage
        = some 96 := by
  constructor
  · rw [(c5_amended_normalize_signal _ _).1]
    norm_num [DtvFrontendStats.get_decibel, DtvFrontendStats.slice,
      DtvStat.get_decibel, List.findSome?]
  · rw [(c5_amended_normalize_signal _ _).2.2.1 (-9000) (by decide) (by decide)
      (by decide)]
    decide

/-- Claim C8 counterexample: when the batched property get fails, the poll
returns the typed error, yet the snapshot's lock-status field has already
been overwritten by the status read — the fields are not "left as they were
before the failed poll". -/
theorem c8_status_updated_despite_error :
    (FeStatus.default.read ⟨.ok 0x01, .error 5, .error 1, .error 1⟩).error
        = some (.device 5) ∧
    (FeStatus.default.read ⟨.ok 0x01, .error 5, .error 1, .error 1⟩).state.status
        = FE_HAS_SIGNAL ∧
    FeStatus.default.status = FE_NONE := by
  refine ⟨rfl, rfl, rfl⟩

/-- Claim C8 (amended): a failed batched get aborts the poll with a typed
error and no quality field is updated; the lock-status field, however, was
already updated by the preceding successful status read, so the snapshot is
exactly the prior one with only `status` replaced. -/
theorem c8_amended_partial_update (self : FeStatus) (fe : FeDeviceIo)
    (st : fe_status) (code : Nat)
    (h1 : fe.read_status = .ok st) (h2 : (st == FE_NONE) = false)
    (h3 : fe.get_properties = .error code) :
    self.read fe = ⟨{ self with status := st },
        [.readStatus, .getProperties], some (.device code)⟩ := by
  unfold FeStatus.read
  rw [h1]
  dsimp only
  simp only [h2, Bool.false_eq_true, if_false, h3]

/-- Witness for the amended C8 at a concrete device. -/
theorem c8_amended_witness :
    FeStatus.default.read ⟨.ok 0x01, .error 5, .error 1, .error 1⟩
      = ⟨{ FeStatus.default with status := 0x01 },
         [.readStatus, .getProperties], some (.device 5)⟩ :=
  c8_amended_partial_update _ _ _ _ rfl rfl rfl

/-- `normalize_signal_strength` does not touch the status field. -/
theorem normalize_signal_strength_status (self : FeStatus)
    (stats : DtvFrontendStats) :
    (self.normalize_signal_strength stats).status = self.status := rfl

/-- `normalize_snr` does not touch the status field. -/
theorem normalize_snr_status (self : FeStatus) (stats : DtvFrontendStats) :
    (self.normalize_snr stats).status = self.status := rfl

/-- The unc step appends at most the single legacy `FE_READ_UNCORRECTED_
BLOCKS` call to the op trace. -/
theorem readUncStep_ops (self : FeStatus) (fe : FeDeviceIo) (props : DtvProps)
    (ops : List DevOp) :
    (FeStatus.readUncStep self fe props ops).ops = ops ∨
    (FeStatus.readUncStep self fe props ops).ops = ops ++ [DevOp.readUnc] := by
  unfold FeStatus.readUncStep
  split
  · exact Or.inl rfl
  · split
    · split
      · exact Or.inr rfl
      · exact Or.inr rfl
    · exact Or.inl rfl

/-- Every device call a poll can issue is one of the status read, the
batched get, or the two legacy counter reads. -/
theorem read_ops_subset (self : FeStatus) (fe : FeDeviceIo) :
    ∀ op ∈ (self.read fe).ops,
      op = DevOp.readStatus ∨ op = DevOp.getProperties ∨
      op = DevOp.readBer ∨ op = DevOp.readUnc := by
  unfold FeStatus.read
  dsimp only
  split
  · simp
  · split
    · simp
    · split
      · simp
      · rename_i props hgp
        split
        · intro op hop
          rcases readUncStep_ops _ fe props _ with h | h <;> rw [h] at hop <;>
            simp at hop <;> tauto
        · split
          · split
            · simp
            · intro op hop
              rcases readUncStep_ops _ fe props _ with h | h <;> rw [h] at hop <;>
                simp at hop <;> tauto
          · intro op hop
            rcases readUncStep_ops _ fe props _ with h | h <;> rw [h] at hop <;>
              simp at hop <;> tauto

/-- Claim C2 counterexample: a locked poll (every lock bit set, so the
has-signal and has-carrier gates of the claim are satisfied) whose signal
and SNR statistic arrays are entirely Unavailable does NOT fall back to the
legacy `FE_READ_SIGNAL_STRENGTH`/`FE_READ_SNR` reads: only the BER/UNC
legacy reads are issued, and the signal percentage stays `None`. -/
theorem c2_no_legacy_signal_snr_reads :
    ((FeStatus.default.read
        ⟨.ok 0x1F,
         .ok ⟨.SYS_DVBS, .QPSK,
              ⟨4, [.FE_SCALE_NOT_AVAILABLE, .FE_SCALE_NOT_AVAILABLE,
                   .FE_SCALE_NOT_AVAILABLE, .FE_SCALE_NOT_AVAILABLE]⟩,
              ⟨4, [.FE_SCALE_NOT_AVAILABLE, .FE_SCALE_NOT_AVAILABLE,
                   .FE_SCALE_NOT_AVAILABLE, .FE_SCALE_NOT_AVAILABLE]⟩,
              ⟨4, [.FE_SCALE_NOT_AVAILABLE, .FE_SCALE_NOT_AVAILABLE,
                   .FE_SCALE_NOT_AVAILABLE, .FE_SCALE_NOT_AVAILABLE]⟩,
              ⟨4, [.FE_SCALE_NOT_AVAILABLE, .FE_SCALE_NOT_AVAILABLE,
                   .FE_SCALE_NOT_AVAILABLE, .FE_SCALE_NOT_AVAILABLE]⟩⟩,
         .ok 7, .ok 8⟩).ops
        = [.readStatus, .getProperties, .readBer, .readUnc]) ∧
    ((FeStatus.default.read
        ⟨.ok 0x1F,
         .ok ⟨.SYS_DVBS, .QPSK,
              ⟨4, [.FE_SCALE_NOT_AVAILABLE, .FE_SCALE_NOT_AVAILABLE,
                   .FE_SCALE_NOT_AVAILABLE, .FE_SCALE_NOT_AVAILABLE]⟩,
              ⟨4, [.FE_SCALE_NOT_AVAILABLE, .FE_SCALE_NOT_AVAILABLE,
                   .FE_SCALE_NOT_AVAILABLE, .FE_SCALE_NOT_AVAILABLE]⟩,
              ⟨4, [.FE_SCALE_NOT_AVAILABLE, .FE_SCALE_NOT_AVAILABLE,
                   .FE_SCALE_NOT_AVAILABLE, .FE_SCALE_NOT_AVAILABLE]⟩,
              ⟨4, [.FE_SCALE_NOT_AVAILABLE, .FE_SCALE_NOT_AVAILABLE,
                   .FE_SCALE_NOT_AVAILABLE, .FE_SCALE_NOT_AVAILABLE]⟩⟩,
         .ok 7, .ok 8⟩).state.signal_strength_percentage = none) := by
  exact ⟨rfl, rfl⟩

/-- Claim C2 (amended): when a statistics array holds only Unavailable
entries, the legacy fallback exists only for BER and UNC and is gated on
has-lock (both issued and stored when the bit is set, both `None` and not
issued otherwise); signal strength and SNR have no legacy fallback at all —
no poll ever issues the legacy signal-strength or SNR reads. -/
theorem c2_amended_fallback_only_ber_unc (self : FeStatus) (fe : FeDeviceIo) :
    (DevOp.readSignalStrength ∉ (self.read fe).ops ∧
     DevOp.readSnr ∉ (self.read fe).ops) ∧
    (∀ st props v w,
      fe.read_status = .ok st → (st == FE_NONE) = false →
      fe.get_properties = .ok props →
      props.ber.get_counter = none → props.unc.get_counter = none →
      fe_status.contains st FE_HAS_LOCK = true →
      fe.read_ber = .ok v → fe.read_unc = .ok w →
      (self.read fe).state.ber = some v ∧
      (self.read fe).state.unc = some w ∧
      (self.read fe).ops
          = [.readStatus, .getProperties, .readBer, .readUnc]) ∧
    (∀ st props,
      fe.read_status = .ok st → (st == FE_NONE) = false →
      fe.get_properties = .ok props →
      props.ber.get_counter = none → props.unc.get_counter = none →
      fe_status.contains st FE_HAS_LOCK = false →
      (self.read fe).state.ber = none ∧
      (self.read fe).state.unc = none ∧
      (self.read fe).ops = [.readStatus, .getProperties]) := by
  refine ⟨⟨?_, ?_⟩, ?_, ?_⟩
  · intro h
    rcases read_ops_subset self fe _ h with h1 | h1 | h1 | h1 <;> simp at h1
  · intro h
    rcases read_ops_subset self fe _ h with h1 | h1 | h1 | h1 <;> simp at h1
  · intro st props v w h1 h2 h3 hb hu hl hrb hru
    unfold FeStatus.read
    rw [h1]
    dsimp only
    simp only [h2, Bool.false_eq_true, if_false, h3]
    simp only [hb, normalize_snr_status, normalize_signal_strength_status]
    simp only [hl, if_true, hrb]
    unfold FeStatus.readUncStep
    simp only [hu]
    simp only [hl, if_true, hru]
    exact ⟨trivial, trivial, by simp⟩
  · intro st props h1 h2 h3 hb hu hl
    unfold FeStatus.read
    rw [h1]
    dsimp only
    simp only [h2, Bool.false_eq_true, if_false, h3]
    simp only [hb, normalize_snr_status, normalize_signal_strength_status]
    simp only [hl, Bool.false_eq_true, if_false]
    unfold FeStatus.readUncStep
    simp only [hu]
    simp only [hl, Bool.false_eq_true, if_false]
    exact ⟨trivial, trivial, by simp⟩

/-- Witness for the amended C2: a locked poll with empty statistics falls
back to the legacy BER/UNC reads and stores their values. -/
theorem c2_amended_witness :
    (FeStatus.default.read
        ⟨.ok 0x10,
         .ok ⟨.SYS_DVBT, .QAM_64,
              ⟨0, [.FE_SCALE_NOT_AVAILABLE, .FE_SCALE_NOT_AVAILABLE,
                   .FE_SCALE_NOT_AVAILABLE, .FE_SCALE_NOT_AVAILABLE]⟩,
              ⟨0, [.FE_SCALE_NOT_AVAILABLE, .FE_SCALE_NOT_AVAILABLE,
                   .FE_SCALE_NOT_AVAILABLE, .FE_SCALE_NOT_AVAILABLE]⟩,
              ⟨0, [.FE_SCALE_NOT_AVAILABLE, .FE_SCALE_NOT_AVAILABLE,
                   .FE_SCALE_NOT_AVAILABLE, .FE_SCALE_NOT_AVAILABLE]⟩,
              ⟨0, [.FE_SCALE_NOT_AVAILABLE, .FE_SCALE_NOT_AVAILABLE,
                   .FE_SCALE_NOT_AVAILABLE, .FE_SCALE_NOT_AVAILABLE]⟩⟩,
         .ok 21, .ok 42⟩).state.ber = some 21 ∧
    (FeStatus.default.read
        ⟨.ok 0x10,
         .ok ⟨.SYS_DVBT, .QAM_64,
              ⟨0, [.FE_SCALE_NOT_AVAILABLE, .FE_SCALE_NOT_AVAILABLE,
                   .FE_SCALE_NOT_AVAILABLE, .FE_SCALE_NOT_AVAILABLE]⟩,
              ⟨0, [.FE_SCALE_NOT_AVAILABLE, .FE_SCALE_NOT_AVAILABLE,
                   .FE_SCALE_NOT_AVAILABLE, .FE_SCALE_NOT_AVAILABLE]⟩,
              ⟨0, [.FE_SCALE_NOT_AVAILABLE, .FE_SCALE_NOT_AVAILABLE,
                   .FE_SCALE_NOT_AVAILABLE, .FE_SCALE_NOT_AVAILABLE]⟩,
              ⟨0, [.FE_SCALE_NOT_AVAILABLE, .FE_SCALE_NOT_AVAILABLE,
                   .FE_SCALE_NOT_AVAILABLE, .FE_SCALE_NOT_AVAILABLE]⟩⟩,
         .ok 21, .ok 42⟩).state.unc = some 42 := by
  have h := (c2_amended_fallback_only_ber_unc FeStatus.default
    ⟨.ok 0x10,
     .ok ⟨.SYS_DVBT, .QAM_64,
          ⟨0, [.FE_SCALE_NOT_AVAILABLE, .FE_SCALE_NOT_AVAILABLE,
               .FE_SCALE_NOT_AVAILABLE, .FE_SCALE_NOT_AVAILABLE]⟩,
          ⟨0, [.FE_SCALE_NOT_AVAILABLE, .FE_SCALE_NOT_AVAILABLE,
               .FE_SCALE_NOT_AVAILABLE, .FE_SCALE_NOT_AVAILABLE]⟩,
          ⟨0, [.FE_SCALE_NOT_AVAILABLE, .FE_SCALE_NOT_AVAILABLE,
               .FE_SCALE_NOT_AVAILABLE, .FE_SCALE_NOT_AVAILABLE]⟩,
          ⟨0, [.FE_SCALE_NOT_AVAILABLE, .FE_SCALE_NOT_AVAILABLE,
               .FE_SCALE_NOT_AVAILABLE, .FE_SCALE_NOT_AVAILABLE]⟩⟩,
     .ok 21, .ok 42⟩).2.1 0x10 _ 21 42 rfl rfl rfl rfl rfl (by decide) rfl rfl
  exact ⟨h.1, h.2.1⟩

/-- `check_properties` succeeds exactly when every entry of the batch passes
its validation rule. -/
theorem check_properties_ok_iff (fe : FeDevice) (l : List DtvProperty) :
    fe.check_properties l = .ok () ↔ ∀ p ∈ l, fe.entry_err p = none := by
  induction l with
  | nil => simp [FeDevice.check_properties]
  | cons p rest ih =>
    simp only [FeDevice.check_properties]
    rcases h : fe.entry_err p with _ | e
    · constructor
      · intro hok q hq
        rcases List.mem_cons.mp hq with rfl | hq2
        · exact h
        · exact ih.mp hok q hq2
      · intro hall
        exact ih.mpr fun q hq => hall q (List.mem_cons_of_mem _ hq)
    · constructor
      · intro hok
        exact absurd hok (by simp)
      · intro hall
        exact absurd (hall p (List.mem_cons_self _ _)) (by simp [h])

/-- A `check_properties` failure carries the validation error of some entry
of the batch. -/
theorem check_properties_error_mem (fe : FeDevice) (l : List DtvProperty)
    (e : SetError) :
    fe.check_properties l = .error e → ∃ p ∈ l, fe.entry_err p = some e := by
  induction l with
  | nil => intro h; exact absurd h (by simp [FeDevice.check_properties])
  | cons p rest ih =>
    intro h
    simp only [FeDevice.check_properties] at h
    rcases hp : fe.entry_err p with _ | e2
    · simp only [hp] at h
      obtain ⟨q, hq, he⟩ := ih h
      exact ⟨q, List.mem_cons_of_mem _ hq, he⟩
    · simp only [hp] at h
      injection h with h2
      exact ⟨p, List.mem_cons_self _ _, by rw [hp, h2]⟩

/-- Claim C4: `set_properties` returns Ok only when every entry of a
validated kind satisfies its rule (frequency and symbol rate within the
device ranges, Auto modes and StreamId only with the matching capability
bit; other kinds pass unchecked — their `entry_err` is `none` by the
catch-all arm); and whenever some entry violates its rule, `set_properties`
returns the matching entry's validation error with the set-property ioctl
never invoked, so no part of the batch is applied. -/
theorem c4_set_properties_validation (fe : FeDevice) (io : Except Nat Unit)
    (cmdseq : List DtvProperty) :
    ((fe.set_properties io cmdseq).1 = .ok () →
      ∀ p ∈ cmdseq, fe.entry_err p = none) ∧
    ((∃ p ∈ cmdseq, fe.entry_err p ≠ none) →
      (fe.set_properties io cmdseq).2 = false ∧
      ∃ p ∈ cmdseq, ∃ e, fe.entry_err p = some e ∧
        (fe.set_properties io cmdseq).1 = .error e) := by
  constructor
  · intro hok
    apply (check_properties_ok_iff fe cmdseq).mp
    unfold FeDevice.set_properties at hok
    rcases hc : fe.check_properties cmdseq with e | u
    · simp only [hc] at hok
      exact hok
    · cases u; rfl
  · rintro ⟨p, hp, hne⟩
    have hchk : fe.check_properties cmdseq ≠ .ok () := fun hok =>
      hne ((check_properties_ok_iff fe cmdseq).mp hok p hp)
    rcases hc : fe.check_properties cmdseq with e | u
    · obtain ⟨q, hq, he⟩ := check_properties_error_mem fe cmdseq e hc
      unfold FeDevice.set_properties
      simp only [hc]
      exact ⟨trivial, q, hq, e, he, by simp⟩
    · cases u; exact absurd hc hchk

/-- Witness for C4: a batch holding an out-of-range frequency next to an
unchecked entry is rejected as a whole without reaching the ioctl. -/
theorem c4_witness :
    (FeDevice.set_properties ⟨950000, 2150001, 0, 1000, 0⟩ (.ok ())
        [.DTV_FREQUENCY 100, .DTV_TUNE]).2 = false ∧
    ∃ p ∈ ([.DTV_FREQUENCY 100, .DTV_TUNE] : List DtvProperty), ∃ e,
      FeDevice.entry_err ⟨950000, 2150001, 0, 1000, 0⟩ p = some e ∧
      (FeDevice.set_properties ⟨950000, 2150001, 0, 1000, 0⟩ (.ok ())
          [.DTV_FREQUENCY 100, .DTV_TUNE]).1 = .error e :=
  (c4_set_properties_validation _ _ _).2
    ⟨.DTV_FREQUENCY 100, by simp, by decide⟩

/-- Claim C6 counterexample: an over-declared list length is accepted, not
rejected — a delivery-system buffer declaring 33 bytes over a 32-byte array
decodes successfully, and a statistics array declaring 5 entries over its
4-entry capacity still yields its counter; no Truncated-style error is
raised anywhere. -/
theorem c6_overlength_decodes :
    (DtvPropertyRequestDeliverySystems.get ⟨List.replicate 32 0, 33⟩
        = .ok (List.replicate 32 .SYS_UNDEFINED)) ∧
    ((⟨List.replicate 32 0, 33⟩ : DtvPropertyBuffer).slice.length = 32) ∧
    ((⟨5, [.FE_SCALE_COUNTER 1, .FE_SCALE_NOT_AVAILABLE,
           .FE_SCALE_NOT_AVAILABLE, .FE_SCALE_NOT_AVAILABLE]⟩ :
        DtvFrontendStats).get_counter = some 1) := by
  refine ⟨rfl, by decide, rfl⟩

/-- Claim C6 (amended): a declared length exceeding the fixed capacity is
silently clamped: `slice` yields `min(len, capacity)` entries, and a fully
over-declared record decodes as the whole fixed array — decoding never
fails on account of the length. -/
theorem c6_amended_lengths_clamped (b : DtvPropertyBuffer)
    (s : DtvFrontendStats) (hb : b.data.length = 32) (hs : s.stat.length = 4) :
    b.slice.length = min b.len 32 ∧ s.slice.length = min s.len 4 ∧
    (32 ≤ b.len → b.slice = b.data) ∧ (4 ≤ s.len → s.slice = s.stat) := by
  refine ⟨?_, ?_, ?_, ?_⟩
  · rw [DtvPropertyBuffer.slice, List.length_take, hb]
    omega
  · rw [DtvFrontendStats.slice, List.length_take, hs]
    omega
  · intro hlen
    rw [DtvPropertyBuffer.slice]
    apply List.take_of_length_le
    omega
  · intro hlen
    rw [DtvFrontendStats.slice]
    apply List.take_of_length_le
    omega

/-- Witness for the amended C6 at concrete over-declared records. -/
theorem c6_amended_witness :
    ((⟨List.replicate 32 7, 40⟩ : DtvPropertyBuffer).slice
        = List.replicate 32 7) ∧
    ((⟨6, [.FE_SCALE_NOT_AVAILABLE, .FE_SCALE_NOT_AVAILABLE,
           .FE_SCALE_NOT_AVAILABLE, .FE_SCALE_NOT_AVAILABLE]⟩ :
        DtvFrontendStats).slice
        = [.FE_SCALE_NOT_AVAILABLE, .FE_SCALE_NOT_AVAILABLE,
           .FE_SCALE_NOT_AVAILABLE, .FE_SCALE_NOT_AVAILABLE]) :=
  ⟨(c6_amended_lengths_clamped ⟨List.replicate 32 7, 40⟩
      ⟨6, [.FE_SCALE_NOT_AVAILABLE, .FE_SCALE_NOT_AVAILABLE,
           .FE_SCALE_NOT_AVAILABLE, .FE_SCALE_NOT_AVAILABLE]⟩
      (by decide) (by decide)).2.2.1 (by decide),
   (c6_amended_lengths_clamped ⟨List.replicate 32 7, 40⟩
      ⟨6, [.FE_SCALE_NOT_AVAILABLE, .FE_SCALE_NOT_AVAILABLE,
           .FE_SCALE_NOT_AVAILABLE, .FE_SCALE_NOT_AVAILABLE]⟩
      (by decide) (by decide)).2.2.2 (by decide)⟩

/-- A batch of `DTV_TUNE` entries (an unchecked kind) of any length passes
validation. -/
theorem check_tune_batch (fe : FeDevice) (n : Nat) :
    fe.check_properties (List.replicate n .DTV_TUNE) = .ok () := by
  induction n with
  | zero => rfl
  | succ k ih =>
    rw [List.replicate_succ]
    simp only [FeDevice.check_properties, FeDevice.entry_err]
    exact ih

/-- Claim C7 counterexample: a batch of 65 entries is accepted by
`set_properties` and handed to the ioctl — no size-limit error is raised
before the wire I/O, contrary to the claim. -/
theorem c7_batch65_reaches_ioctl :
    FeDevice.set_properties ⟨0, 1, 0, 1, 0⟩ (.ok ())
        (List.replicate 65 .DTV_TUNE)
      = (.ok (), true) := by
  unfold FeDevice.set_properties
  rw [check_tune_batch]

/-- Claim C7 (amended): `set_properties` performs no batch-size check at
all: the 64-entry protocol ceiling exists in the source only as the unused
constant `DTV_IOCTL_MAX_MSGS`; a batch of validated-clean entries of any
length n — 64 and 65 alike — always reaches the ioctl. -/
theorem c7_amended_no_size_gate (fe : FeDevice) (io : Except Nat Unit)
    (n : Nat) :
    DTV_IOCTL_MAX_MSGS = 64 ∧
    (fe.set_properties io (List.replicate n .DTV_TUNE)).2 = true ∧
    (io = .ok () →
      (fe.set_properties io (List.replicate n .DTV_TUNE)).1 = .ok ()) := by
  refine ⟨rfl, ?_, ?_⟩
  · unfold FeDevice.set_properties
    rw [check_tune_batch]
    cases io <;> rfl
  · intro h
    subst h
    unfold FeDevice.set_properties
    rw [check_tune_batch]

/-- Witness for the amended C7 at n = 65. -/
theorem c7_amended_witness :
    (FeDevice.set_properties ⟨0, 1, 0, 1, 0⟩ (.ok ())
        (List.replicate 65 .DTV_TUNE)).2 = true ∧
    (FeDevice.set_properties ⟨0, 1, 0, 1, 0⟩ (.ok ())
        (List.replicate 65 .DTV_TUNE)).1 = .ok () :=
  ⟨(c7_amended_no_size_gate _ _ 65).2.1,
   (c7_amended_no_size_gate _ _ 65).2.2 rfl⟩

/-- First-hit characterization of `List.findSome?`: it returns v exactly
when the list splits as a prefix on which the selector yields nothing, the
hit entry itself, and an arbitrary suffix. -/
theorem findSome?_eq_some_iff_split {α β : Type} (f : α → Option β)
    (l : List α) (v : β) :
    l.findSome? f = some v ↔
      ∃ l1 a l2, l = l1 ++ a :: l2 ∧ f a = some v ∧ ∀ b ∈ l1, f b = none := by
  induction l with
  | nil =>
    simp only [List.findSome?]
    constructor
    · intro h; exact absurd h (by simp)
    · rintro ⟨l1, a, l2, heq, _, _⟩
      rcases l1 with _ | ⟨y, l1'⟩ <;> simp at heq
  | cons x xs ih =>
    rw [List.findSome?_cons]
    rcases hfx : f x with _ | b
    · rw [ih]
      constructor
      · rintro ⟨l1, a, l2, rfl, hfa, hnone⟩
        refine ⟨x :: l1, a, l2, rfl, hfa, ?_⟩
        intro b hb
        rcases List.mem_cons.mp hb with rfl | hb2
        · exact hfx
        · exact hnone b hb2
      · rintro ⟨l1, a, l2, heq, hfa, hnone⟩
        rcases l1 with _ | ⟨y, l1'⟩
        · simp only [List.nil_append, List.cons.injEq] at heq
          obtain ⟨rfl, rfl⟩ := heq
          rw [hfx] at hfa
          exact absurd hfa (by simp)
        · simp only [List.cons_append, List.cons.injEq] at heq
          obtain ⟨rfl, heq2⟩ := heq
          exact ⟨l1', a, l2, heq2, hfa,
            fun b hb => hnone b (List.mem_cons_of_mem _ hb)⟩
    · constructor
      · intro h
        refine ⟨[], x, xs, rfl, ?_, by simp⟩
        rw [hfx]
        exact h
      · rintro ⟨l1, a, l2, heq, hfa, hnone⟩
        rcases l1 with _ | ⟨y, l1'⟩
        · simp only [List.nil_append, List.cons.injEq] at heq
          obtain ⟨rfl, rfl⟩ := heq
          rw [hfx] at hfa
          exact hfa
        · simp only [List.cons_append, List.cons.injEq] at heq
          obtain ⟨rfl, heq2⟩ := heq
          have hx := hnone x (by simp)
          rw [hfx] at hx
          exact absurd hx (by simp)

/-- Claim C9 counterexample: on the mixed array [Decibel 5, Counter 9] the
counter getter returns 9, yet the first non-Unavailable entry of the array
is the decibel entry — the reader's result is not "the first entry whose
tag is not Unavailable". -/
theorem c9_reader_skips_other_scales :
    ((⟨2, [.FE_SCALE_DECIBEL 5, .FE_SCALE_COUNTER 9, .FE_SCALE_NOT_AVAILABLE,
           .FE_SCALE_NOT_AVAILABLE]⟩ : DtvFrontendStats).get_counter
        = some 9) ∧
    (specFirstAvailable
        ⟨2, [.FE_SCALE_DECIBEL 5, .FE_SCALE_COUNTER 9, .FE_SCALE_NOT_AVAILABLE,
             .FE_SCALE_NOT_AVAILABLE]⟩
        = some (.FE_SCALE_DECIBEL 5)) ∧
    ((DtvStat.FE_SCALE_DECIBEL 5).get_counter = none) := by
  refine ⟨rfl, rfl, rfl⟩

/-- Claim C9 (amended): each per-scale getter scans the slice in array
order and returns, verbatim, the payload of the first entry of its own
scale, skipping entries of other scales; entries are never averaged or
merged (the result always comes from exactly one entry, and every earlier
entry has no value of that scale). -/
theorem c9_amended_first_of_scale (s : DtvFrontendStats) :
    (∀ v, s.get_decibel = some v ↔
      ∃ l1 st l2, s.slice = l1 ++ st :: l2 ∧ st.get_decibel = some v ∧
        ∀ q ∈ l1, q.get_decibel = none) ∧
    (∀ v, s.get_relative = some v ↔
      ∃ l1 st l2, s.slice = l1 ++ st :: l2 ∧ st.get_relative = some v ∧
        ∀ q ∈ l1, q.get_relative = none) ∧
    (∀ v, s.get_counter = some v ↔
      ∃ l1 st l2, s.slice = l1 ++ st :: l2 ∧ st.get_counter = some v ∧
        ∀ q ∈ l1, q.get_counter = none) :=
  ⟨fun v => findSome?_eq_some_iff_split DtvStat.get_decibel s.slice v,
   fun v => findSome?_eq_some_iff_split DtvStat.get_relative s.slice v,
   fun v => findSome?_eq_some_iff_split DtvStat.get_counter s.slice v⟩

/-- Witness for the amended C9: applying the characterization backwards at
the mixed array yields the counter 9 behind the decibel entry. -/
theorem c9_amended_witness :
    (⟨2, [.FE_SCALE_DECIBEL 5, .FE_SCALE_COUNTER 9, .FE_SCALE_NOT_AVAILABLE,
          .FE_SCALE_NOT_AVAILABLE]⟩ : DtvFrontendStats).get_counter
      = some 9 :=
  ((c9_amended_first_of_scale
      ⟨2, [.FE_SCALE_DECIBEL 5, .FE_SCALE_COUNTER 9, .FE_SCALE_NOT_AVAILABLE,
           .FE_SCALE_NOT_AVAILABLE]⟩).2.2 9).mpr
    ⟨[.FE_SCALE_DECIBEL 5], .FE_SCALE_COUNTER 9, [], by decide, rfl, by decide⟩

end LibDvb
